import Mathlib

/-!
# Verification of meltano's job logging and plugin lockfile services

Shallow embedding of `src/meltano/core/logging/job_logging_service.py`
and `src/meltano/core/plugin_lock_service.py`.

Filesystem state is passed explicitly: the job logging side works on the
set of files visible for one `state_id` (primary and legacy directories),
the lockfile side on a map from paths to file bytes.  Fallible Python
operations become `Except`/`Option`-valued Lean functions.
-/

namespace Meltano

/-- Maximum size in bytes for full-content log retrieval (`MAX_FILE_SIZE`
in `job_logging_service.py`): 2 MB. -/
def MAX_FILE_SIZE : Nat := 2097152

/-- One file on disk as the job logging service sees it.  `name` is the
file's full path (its identity), `ctimeNs` the OS creation timestamp in
nanoseconds (`os.stat(path).st_ctime_ns`), `size` the byte size
(`stat().st_size`), and `content` the text that `open()`/`read()` returns.
`onDisk` is `false` when the file was removed between directory discovery
and a later `stat`/`open` (which then raise `FileNotFoundError`);
`unlinkFails` models `Path.unlink` raising an `OSError`. -/
structure FileMeta where
  name : String
  ctimeNs : Nat
  size : Nat
  content : String
  onDisk : Bool
  unlinkFails : Bool
deriving DecidableEq, Repr

/-- The filesystem for one `state_id` as `JobLoggingService` sees it: the
files under the primary logs directory (`logs_dir(state_id)`, which
always exists since it is created on demand) and under the legacy
directory (`run/elt/<slugified state_id>`), `none` when the legacy
directory does not exist (`legacy_logs_dir` returns `None`). -/
structure StateLogs where
  primary : List FileMeta
  legacy : Option (List FileMeta)
deriving DecidableEq, Repr

/-- Files of all directories returned by `logs_dirs(state_id)`: the
primary directory always, the legacy directory only when it exists. -/
def logsDirsFiles (s : StateLogs) : List FileMeta :=
  s.primary ++ (match s.legacy with
    | some l => l
    | none => [])

/-- Whether a file matches the recursive glob `**/*.log` used by
`get_all_logs` (pathlib glob: the basename ends in `.log`), stated over
the path's character list. -/
def isLogFile (f : FileMeta) : Bool :=
  ".log".data.isSuffixOf f.name.data

/-- The unsorted list comprehension inside `get_all_logs`: every `*.log`
file of every directory in `logs_dirs(state_id)`, primary directory
first, in traversal order. -/
def logCandidates (s : StateLogs) : List FileMeta :=
  (logsDirsFiles s).filter isLogFile

/-- Sort order used by `get_all_logs`: descending OS creation timestamp
(`sorted(..., key=lambda path: os.stat(path).st_ctime_ns, reverse=True)`). -/
def ctimeGe (a b : FileMeta) : Prop :=
  b.ctimeNs ≤ a.ctimeNs

/-- Strictly earlier creation time. -/
def ctimeLt (a b : FileMeta) : Prop :=
  a.ctimeNs < b.ctimeNs

/-- Strictly later creation time. -/
def ctimeGt (a b : FileMeta) : Prop :=
  b.ctimeNs < a.ctimeNs

instance : DecidableRel ctimeGe :=
  fun a b => Nat.decLe b.ctimeNs a.ctimeNs

instance : DecidableRel ctimeLt :=
  fun a b => Nat.decLt a.ctimeNs b.ctimeNs

instance : DecidableRel ctimeGt :=
  fun a b => Nat.decLt b.ctimeNs a.ctimeNs

instance : IsTotal FileMeta ctimeGe :=
  ⟨fun a b => Nat.le_total b.ctimeNs a.ctimeNs⟩

instance : IsTrans FileMeta ctimeGe :=
  ⟨fun _ _ _ hab hbc => Nat.le_trans hbc hab⟩

instance : IsAntisymm FileMeta ctimeGt :=
  ⟨fun _ _ h1 h2 => absurd h1 (Nat.lt_asymm h2)⟩

/-- Embedding of `JobLoggingService.get_all_logs`: glob both directories
and sort by creation time, newest first.  Python's `sorted` is a stable
sort; `List.insertionSort` is likewise stable for the chosen relation, so
ties keep traversal order in both. -/
def get_all_logs (s : StateLogs) : List FileMeta :=
  List.insertionSort ctimeGe (logCandidates s)

/-- Errors the log accessors can surface: `MissingJobLogException` and
`SizeThresholdJobLogException`. -/
inductive JobLogErr where
  | missing
  | sizeThreshold
deriving DecidableEq, Repr

/-- Embedding of `JobLoggingService.get_latest_log`.  `next(iter(...))`
on an empty listing raises `StopIteration`, converted to
`MissingJobLogException`; a file removed between discovery and
`stat`/`open` raises `FileNotFoundError`, also converted to
`MissingJobLogException`; a file larger than `MAX_FILE_SIZE` raises
`SizeThresholdJobLogException`; otherwise the file's content is
returned. -/
def get_latest_log (s : StateLogs) : Except JobLogErr String :=
  match get_all_logs s with
  | [] => .error .missing
  | latest :: _ =>
    if latest.onDisk then
      if MAX_FILE_SIZE < latest.size then .error .sizeThreshold
      else .ok latest.content
    else .error .missing

/-- Embedding of `Path.resolve()`: file names in this model are already
absolute canonical paths, so resolution is the identity.  In non-strict
mode `resolve()` raises no error even for a removed file. -/
def resolvePath (p : String) : String := p

/-- Embedding of `JobLoggingService.get_downloadable_log`: same
discovery and latest-selection as `get_latest_log` but returns the
resolved path, with no size check and no `stat`/`open` of the file. -/
def get_downloadable_log (s : StateLogs) : Except JobLogErr String :=
  match get_all_logs s with
  | [] => .error .missing
  | latest :: _ => .ok (resolvePath latest.name)

/-- Errors raised by filesystem mutation (`OSError`, of which
`FileNotFoundError` is a subclass; `delete_all_logs` propagates either
unmodified, so the model does not distinguish them). -/
inductive OSErr where
  | osError
deriving DecidableEq, Repr

/-- Removal of the file named `n` from both directories. -/
def removeName (s : StateLogs) (n : String) : StateLogs :=
  ⟨s.primary.filter (fun f => !(decide (f.name = n))),
   s.legacy.map (fun l => l.filter (fun f => !(decide (f.name = n))))⟩

/-- Removal of every file whose name occurs in `ns`. -/
def removeNames (s : StateLogs) (ns : List String) : StateLogs :=
  ⟨s.primary.filter (fun f => !(decide (f.name ∈ ns))),
   s.legacy.map (fun l => l.filter (fun f => !(decide (f.name ∈ ns))))⟩

/-- Embedding of `Path.unlink()` on a file discovered earlier: raises
`FileNotFoundError` when no file of that name exists any more, an
`OSError` when the OS refuses the deletion (`unlinkFails`), and
otherwise removes the file. -/
def unlink (s : StateLogs) (f : FileMeta) : Except OSErr StateLogs :=
  if (logsDirsFiles s).any (fun g => decide (g.name = f.name)) then
    if f.unlinkFails then .error .osError
    else .ok (removeName s f.name)
  else .error .osError

/-- The loop inside `delete_all_logs`: unlink each discovered log file
in turn.  An `OSError` propagates immediately and the deletions already
performed are kept (no rollback), so the final filesystem state is
returned alongside the error, if any. -/
def deleteFold : List FileMeta → StateLogs → Option OSErr × StateLogs
  | [], s => (none, s)
  | f :: rest, s =>
    match unlink s f with
    | .error e => (some e, s)
    | .ok s2 => deleteFold rest s2

/-- Embedding of `JobLoggingService.delete_all_logs`. -/
def delete_all_logs (s : StateLogs) : Option OSErr × StateLogs :=
  deleteFold (get_all_logs s) s

/-- Well-formedness of the modelled filesystem: a path names at most one
file. -/
def nodupNames (s : StateLogs) : Prop :=
  ((logsDirsFiles s).map FileMeta.name).Nodup

instance (s : StateLogs) : Decidable (nodupNames s) :=
  List.nodupDecidable _

/-- Exceptions involved in `create_log`: an `OSError` (as raised by a
failing `open`), any other exception raised by the caller's body, and
the `RuntimeError` that `contextlib` raises when a generator yields a
second time after `throw`. -/
inductive Exc where
  | osErr
  | otherExc
  | runtime
deriving DecidableEq, Repr

/-- What the caller's `with create_log(...) as sink:` block does: a
sequence of writes to the yielded sink, then optionally an exception. -/
structure LogBody where
  writes : List String
  raises : Option Exc
deriving DecidableEq, Repr

/-- Observable events of one `create_log` scope: handle acquisition and
release for the log file and for `os.devnull`, writes to either sink,
and the `logging.error` call of the fallback path. -/
inductive Ev where
  | openedFile (p : String)
  | closedFile (p : String)
  | openedNull
  | closedNull
  | wroteFile (p : String) (w : String)
  | wroteNull (w : String)
  | loggedOpenError
deriving DecidableEq, Repr

/-- Embedding of the `create_log` context manager.  `canOpen` says
whether `open(log_file_name, "w")` succeeds.  When it does, the body
runs against the real file; a body exception is thrown into the
generator at the `yield`, the inner `with` closes the file and the
exception propagates — except an `OSError`, which the `except OSError`
clause catches, after which the second `yield` makes `contextlib` raise
`RuntimeError` at the caller (the `/dev/null` handle is then left to the
garbage collector).  When `open` fails with an `OSError`, the `except`
clause logs the condition and yields a handle to `os.devnull` instead:
every write is accepted and discarded, the open failure is not
propagated, and a body exception propagates after the `with` closes the
null handle.  Returns the event trace and the exception the caller
observes, if any. -/
def create_log (canOpen : Bool) (p : String) (body : LogBody) :
    List Ev × Option Exc :=
  if canOpen then
    let pre := Ev.openedFile p :: body.writes.map (Ev.wroteFile p)
    match body.raises with
    | none => (pre ++ [Ev.closedFile p], none)
    | some Exc.osErr =>
      (pre ++ [Ev.closedFile p, Ev.loggedOpenError, Ev.openedNull],
       some Exc.runtime)
    | some e => (pre ++ [Ev.closedFile p], some e)
  else
    (Ev.loggedOpenError :: Ev.openedNull :: body.writes.map Ev.wroteNull
       ++ [Ev.closedNull],
     body.raises)

/-- Whether an event is a write to the null sink. -/
def isNullWrite : Ev → Bool
  | Ev.wroteNull _ => true
  | _ => false

/-- Whether an event is a write to a real log file. -/
def isFileWrite : Ev → Bool
  | Ev.wroteFile _ _ => true
  | _ => false

/-- Modelled from the spec: `StandalonePlugin`
(`meltano.core.plugin.base.StandalonePlugin`, not under `src/`), the
plugin-type-agnostic "standalone" form of a resolved plugin definition:
plugin type, name, variant name, and the variant-specific configuration
(whose schema is owned by the external collaborator, modelled as
key-value pairs). -/
structure StandalonePlugin where
  pluginType : String
  name : String
  variant : String
  config : List (String × String)
deriving DecidableEq, Repr

/-- Modelled from the spec: `ProjectPlugin` together with the result of
`definition.find_variant(plugin.variant)` (external collaborators
`PluginDefinition` and `Variant`, not under `src/`): exactly the data
`PluginLock` consumes — type, name, resolved variant name and the
variant's payload. -/
structure ProjectPlugin where
  pluginType : String
  name : String
  variant : String
  config : List (String × String)
deriving DecidableEq, Repr

/-- Modelled from the spec: the canonical serializable mapping
`StandalonePlugin.canonical()` — an ordered key/value mapping of the
plugin's fields followed by its variant-specific configuration. -/
def StandalonePlugin.canonical (sp : StandalonePlugin) :
    List (String × String) :=
  ("plugin_type", sp.pluginType) :: ("name", sp.name) ::
    ("variant", sp.variant) :: sp.config

/-- Modelled from the spec: the `StandalonePlugin(**mapping)` keyword
constructor used by the default loader — rebuilding the plugin from its
canonical mapping, `none` when the mapping does not have the expected
shape. -/
def StandalonePlugin.ofCanonical :
    List (String × String) → Option StandalonePlugin
  | ("plugin_type", t) :: ("name", n) :: ("variant", v) :: cfg =>
    some ⟨t, n, v, cfg⟩
  | _ => none

/-- Modelled from the spec: serialization of a string for the lockfile
bytes — a length-prefixed code-point encoding.  The concrete JSON
syntax (`json.dump(..., indent=2)` / `json.load`, Python standard
library, not under `src/`) is abstracted into an injective encoding
with a matching parser; only dump/parse inversion matters to the
service. -/
def encodeStr (x : String) : List Nat :=
  x.data.length :: x.data.map Char.toNat

/-- Serialization of one key/value pair. -/
def encodePair (kv : String × String) : List Nat :=
  encodeStr kv.1 ++ encodeStr kv.2

/-- Serialization of a list of key/value pairs. -/
def encodePairs : List (String × String) → List Nat
  | [] => []
  | kv :: rest => encodePair kv ++ encodePairs rest

/-- Modelled from the spec: `json.dump` of a canonical mapping — a
count-prefixed sequence of encoded pairs. -/
def jsonDump (c : List (String × String)) : List Nat :=
  c.length :: encodePairs c

/-- Parsing one length-prefixed string, returning it and the remaining
bytes. -/
def decodeStr : List Nat → Option (String × List Nat)
  | [] => none
  | n :: rest =>
    if n ≤ rest.length then
      some (⟨(rest.take n).map Char.ofNat⟩, rest.drop n)
    else none

/-- Parsing one key/value pair. -/
def decodePair (bs : List Nat) : Option ((String × String) × List Nat) :=
  match decodeStr bs with
  | none => none
  | some (k, bs1) =>
    match decodeStr bs1 with
    | none => none
    | some (v, bs2) => some ((k, v), bs2)

/-- Parsing a counted sequence of key/value pairs. -/
def decodePairs : Nat → List Nat → Option (List (String × String) × List Nat)
  | 0, bs => some ([], bs)
  | n + 1, bs =>
    match decodePair bs with
    | none => none
    | some (kv, bs1) =>
      match decodePairs n bs1 with
      | none => none
      | some (kvs, bs2) => some (kv :: kvs, bs2)

/-- Modelled from the spec: `json.load` — the parser matching
`jsonDump`, `none` on malformed bytes. -/
def jsonParse (bs : List Nat) : Option (List (String × String)) :=
  match bs with
  | [] => none
  | n :: rest =>
    match decodePairs n rest with
    | some (kvs, []) => some kvs
    | _ => none

/-- The lockfile filesystem: a map from paths to file bytes. -/
abbrev LockFS : Type := String → Option (List Nat)

/-- Writing (creating or fully overwriting) a file. -/
def LockFS.write (fs : LockFS) (p : String) (bs : List Nat) : LockFS :=
  fun q => if q = p then some bs else fs q

/-- Modelled from the spec: `Project.plugin_lock_path(type, name,
variant_name)` (external Path Resolver collaborator, not under `src/`) —
the lock path is a pure function of plugin type, name and variant:
`<plugin-type-specific path>/<name>--<variant>.lock.json`. -/
def plugin_lock_path (t n v : String) : String :=
  t ++ "/" ++ n ++ "--" ++ v ++ ".lock.json"

/-- Embedding of `PluginLock.__init__`: the lock captures the resolved
definition data, and its target path is computed at construction time
from the plugin's type, name and resolved variant name. -/
structure PluginLock where
  pluginType : String
  name : String
  variant : String
  config : List (String × String)
deriving DecidableEq, Repr

/-- Construction of a `PluginLock` from a project plugin
(`PluginLock(project, plugin)`). -/
def PluginLock.ofPlugin (p : ProjectPlugin) : PluginLock :=
  ⟨p.pluginType, p.name, p.variant, p.config⟩

/-- The lock's target path (`project.plugin_lock_path(...)`). -/
def PluginLock.path (lk : PluginLock) : String :=
  plugin_lock_path lk.pluginType lk.name lk.variant

/-- The locked definition
(`StandalonePlugin.from_variant(self.variant, self.definition)`). -/
def PluginLock.standalone (lk : PluginLock) : StandalonePlugin :=
  ⟨lk.pluginType, lk.name, lk.variant, lk.config⟩

/-- Embedding of `PluginLock.save`: serialize the standalone form's
canonical mapping and write it to the lock path, fully overwriting any
existing content. -/
def PluginLock.save (lk : PluginLock) (fs : LockFS) : LockFS :=
  fs.write lk.path (jsonDump lk.standalone.canonical)

/-- Errors a loader can raise: `FileNotFoundError` or anything else. -/
inductive LoadErr where
  | fileNotFound
  | otherErr
deriving DecidableEq, Repr

/-- The default loader
`lambda x: StandalonePlugin(**json.load(x))`: parse the file's bytes
and rebuild the standalone plugin; a parse or construction failure is a
non-`FileNotFoundError` exception. -/
def defaultLoader (bs : List Nat) : Except LoadErr StandalonePlugin :=
  match jsonParse bs with
  | none => .error .otherErr
  | some c =>
    match StandalonePlugin.ofCanonical c with
    | none => .error .otherErr
    | some sp => .ok sp

/-- The inner `_load` of `PluginLock.load`: `open(self.path)` raises
`FileNotFoundError` when the lockfile is absent; otherwise the loader
runs on the open file. -/
def loadOnce (lk : PluginLock)
    (loader : List Nat → Except LoadErr StandalonePlugin)
    (fs : LockFS) : Except LoadErr StandalonePlugin :=
  match fs lk.path with
  | none => .error .fileNotFound
  | some bs => loader bs

/-- Embedding of `PluginLock.load`: try `_load`; on `FileNotFoundError`
with `create=True`, call `save()` and retry `_load` (whose errors now
propagate uncaught); on `FileNotFoundError` with `create=False`,
re-raise; any other error propagates.  Returns the loaded plugin and
the resulting filesystem. -/
def PluginLock.load (lk : PluginLock) (create : Bool)
    (loader : List Nat → Except LoadErr StandalonePlugin) (fs : LockFS) :
    Except LoadErr (StandalonePlugin × LockFS) :=
  match loadOnce lk loader fs with
  | .ok sp => .ok (sp, fs)
  | .error .fileNotFound =>
    if create then
      match loadOnce lk loader (lk.save fs) with
      | .ok sp => .ok (sp, lk.save fs)
      | .error e => .error e
    else .error .fileNotFound
  | .error e => .error e

/-- Error of `PluginLockService.save`: `LockfileAlreadyExistsError`
carrying the conflicting path and the plugin reference. -/
inductive LockSaveErr where
  | alreadyExists (path : String) (plugin : ProjectPlugin)
deriving DecidableEq, Repr

/-- Embedding of `PluginLockService.save`: build the `PluginLock`,
check existence first and fail without writing when the lockfile exists
and `exists_ok` is false; otherwise write through `PluginLock.save`.
Returns the error, if any, and the resulting filesystem. -/
def PluginLockService.save (plugin : ProjectPlugin) (exists_ok : Bool)
    (fs : LockFS) : Option LockSaveErr × LockFS :=
  let lk := PluginLock.ofPlugin plugin
  if (fs lk.path).isSome && !exists_ok then
    (some (.alreadyExists lk.path plugin), fs)
  else
    (none, lk.save fs)

/-- Right rotation of a 32-bit word (FIPS 180-4), on `Nat` with explicit
reduction modulo `2 ^ 32`. -/
def rotr32 (x n : Nat) : Nat :=
  ((x >>> n) ||| (x <<< (32 - n))) % 4294967296

/-- Bitwise complement within 32 bits. -/
def not32 (x : Nat) : Nat :=
  x ^^^ 4294967295

/-- SHA-256 big sigma 0. -/
def bsig0 (x : Nat) : Nat :=
  rotr32 x 2 ^^^ rotr32 x 13 ^^^ rotr32 x 22

/-- SHA-256 big sigma 1. -/
def bsig1 (x : Nat) : Nat :=
  rotr32 x 6 ^^^ rotr32 x 11 ^^^ rotr32 x 25

/-- SHA-256 small sigma 0. -/
def ssig0 (x : Nat) : Nat :=
  rotr32 x 7 ^^^ rotr32 x 18 ^^^ (x >>> 3)

/-- SHA-256 small sigma 1. -/
def ssig1 (x : Nat) : Nat :=
  rotr32 x 17 ^^^ rotr32 x 19 ^^^ (x >>> 10)

/-- SHA-256 choice function. -/
def chFn (x y z : Nat) : Nat :=
  (x &&& y) ^^^ (not32 x &&& z)

/-- SHA-256 majority function. -/
def majFn (x y z : Nat) : Nat :=
  (x &&& y) ^^^ (x &&& z) ^^^ (y &&& z)

/-- Big-endian byte representation of `n` on `k` bytes. -/
def beBytes (k n : Nat) : List Nat :=
  (List.range k).map (fun i => (n >>> (8 * (k - 1 - i))) % 256)

/-- SHA-256 padding: append `0x80`, zeros to 56 mod 64, then the bit
length on 8 big-endian bytes. -/
def padMessage (msg : List Nat) : List Nat :=
  msg ++ 128 :: List.replicate ((119 - msg.length % 64) % 64) 0
    ++ beBytes 8 (8 * msg.length)

/-- Grouping of bytes into big-endian 32-bit words. -/
def toWords : List Nat → List Nat
  | a :: b :: c :: d :: rest =>
    ((a % 256) * 16777216 + (b % 256) * 65536 + (c % 256) * 256 + d % 256)
      :: toWords rest
  | _ => []

/-- The 64 SHA-256 round constants. -/
def K256 : List Nat :=
  [1116352408, 1899447441, 3049323471,
   3921009573, 961987163, 1508970993,
   2453635748, 2870763221, 3624381080,
   310598401, 607225278, 1426881987,
   1925078388, 2162078206, 2614888103,
   3248222580, 3835390401, 4022224774,
   264347078, 604807628, 770255983,
   1249150122, 1555081692, 1996064986,
   2554220882, 2821834349, 2952996808,
   3210313671, 3336571891, 3584528711,
   113926993, 338241895, 666307205,
   773529912, 1294757372, 1396182291,
   1695183700, 1986661051, 2177026350,
   2456956037, 2730485921, 2820302411,
   3259730800, 3345764771, 3516065817,
   3600352804, 4094571909, 275423344,
   430227734, 506948616, 659060556,
   883997877, 958139571, 1322822218,
   1537002063, 1747873779, 1955562222,
   2024104815, 2227730452, 2361852424,
   2428436474, 2756734187, 3204031479,
   3329325298]

/-- A SHA-256 hash state of eight 32-bit words. -/
structure Hash8 where
  h0 : Nat
  h1 : Nat
  h2 : Nat
  h3 : Nat
  h4 : Nat
  h5 : Nat
  h6 : Nat
  h7 : Nat
deriving DecidableEq, Repr

/-- The SHA-256 initial hash value. -/
def initH : Hash8 :=
  ⟨1779033703, 3144134277, 1013904242, 2773480762,
   1359893119, 2600822924, 528734635, 1541459225⟩

/-- Extension of the 16 message-schedule words to 64 (48 steps). -/
def extendW : Nat → List Nat → List Nat
  | 0, w => w
  | k + 1, w =>
    extendW k (w ++ [(ssig1 (w.getD (w.length - 2) 0)
      + w.getD (w.length - 7) 0 + ssig0 (w.getD (w.length - 15) 0)
      + w.getD (w.length - 16) 0) % 4294967296])

/-- One SHA-256 compression round. -/
def compressStep (st : Hash8) (k w : Nat) : Hash8 :=
  let t1 := (st.h7 + bsig1 st.h4 + chFn st.h4 st.h5 st.h6 + k + w) % 4294967296
  let t2 := (bsig0 st.h0 + majFn st.h0 st.h1 st.h2) % 4294967296
  ⟨(t1 + t2) % 4294967296, st.h0, st.h1, st.h2,
   (st.h3 + t1) % 4294967296, st.h4, st.h5, st.h6⟩

/-- Word-wise modular addition of hash states. -/
def addHash (x y : Hash8) : Hash8 :=
  ⟨(x.h0 + y.h0) % 4294967296, (x.h1 + y.h1) % 4294967296,
   (x.h2 + y.h2) % 4294967296, (x.h3 + y.h3) % 4294967296,
   (x.h4 + y.h4) % 4294967296, (x.h5 + y.h5) % 4294967296,
   (x.h6 + y.h6) % 4294967296, (x.h7 + y.h7) % 4294967296⟩

/-- SHA-256 compression of one 64-byte block. -/
def compress (H : Hash8) (block : List Nat) : Hash8 :=
  let w := extendW 48 (toWords block)
  addHash H ((K256.zip w).foldl (fun st kw => compressStep st kw.1 kw.2) H)

/-- Iteration of the compression function over the padded message,
64 bytes at a time. -/
def sha256Loop : Nat → Hash8 → List Nat → Hash8
  | 0, H, _ => H
  | k + 1, H, bytes => sha256Loop k (compress H (bytes.take 64)) (bytes.drop 64)

/-- The SHA-256 digest of a byte string as a hash state. -/
def sha256digest (msg : List Nat) : Hash8 :=
  let p := padMessage msg
  sha256Loop (p.length / 64) initH p

/-- The SHA-256 digest read as one 256-bit big-endian number. -/
def sha256nat (msg : List Nat) : Nat :=
  let d := sha256digest msg
  ((((((d.h0 * 4294967296 + d.h1) * 4294967296 + d.h2) * 4294967296 + d.h3)
    * 4294967296 + d.h4) * 4294967296 + d.h5) * 4294967296 + d.h6)
    * 4294967296 + d.h7

/-- The hexadecimal digit for a value below 16. -/
def hexDigit (n : Nat) : Char :=
  Char.ofNat (if n < 10 then 48 + n else 87 + n)

/-- The 64-hex-digit big-endian rendering of a 256-bit number, as
`hexdigest()` renders a digest. -/
def toHex64 (n : Nat) : String :=
  ⟨(List.range 64).map (fun i => hexDigit ((n >>> (4 * (63 - i))) % 16))⟩

/-- Embedding of `hashlib.sha256(data).hexdigest()` (Python standard
library): the FIPS 180-4 SHA-256 digest rendered as 64 hex digits. -/
def sha256hex (msg : List Nat) : String :=
  toHex64 (sha256nat msg)

/-- Embedding of `PluginLock.sha256_checksum`: the SHA-256 hex digest of
`self.path.read_bytes()`, recomputed from the file on each access
(`read_bytes` raises `FileNotFoundError` when the lockfile is absent,
hence the `Option`). -/
def PluginLock.sha256_checksum (lk : PluginLock) (fs : LockFS) :
    Option String :=
  (fs lk.path).map sha256hex


/-- All eight words of a hash state are below `2 ^ 32`. -/
def boundH (H : Hash8) : Prop :=
  H.h0 < 4294967296 ∧ H.h1 < 4294967296 ∧ H.h2 < 4294967296 ∧
  H.h3 < 4294967296 ∧ H.h4 < 4294967296 ∧ H.h5 < 4294967296 ∧
  H.h6 < 4294967296 ∧ H.h7 < 4294967296

/-- C1: `get_latest_log` fails with `SizeThresholdJobLogException` when
the most recent log file's size strictly exceeds 2 097 152 bytes, and
returns the file's full content when the size is at most 2 097 152
bytes; the size limit does not apply to `get_downloadable_log`, which
returns the resolved path regardless of size. -/
theorem get_latest_log_size_gate (s : StateLogs) (f : FileMeta)
    (rest : List FileMeta) (hall : get_all_logs s = f :: rest)
    (hdisk : f.onDisk = true) :
    (MAX_FILE_SIZE < f.size → get_latest_log s = .error .sizeThreshold) ∧
    (f.size ≤ MAX_FILE_SIZE → get_latest_log s = .ok f.content) ∧
    get_downloadable_log s = .ok (resolvePath f.name) := by
  unfold get_latest_log get_downloadable_log
  rw [hall]
  refine ⟨fun hbig => ?_, fun hsmall => ?_, rfl⟩
  · simp [hdisk, hbig]
  · simp [hdisk, Nat.not_lt.mpr hsmall]

/-- Witness for C1 at the exact boundary: a 2 097 153-byte log is
refused, a 2 097 152-byte log is returned in full, and the oversized log
is still reachable through `get_downloadable_log`. -/
theorem get_latest_log_size_gate_witness :
    get_latest_log ⟨[⟨"a.log", 10, 2097153, "big", true, false⟩], none⟩ =
      .error .sizeThreshold ∧
    get_downloadable_log ⟨[⟨"a.log", 10, 2097153, "big", true, false⟩], none⟩ =
      .ok "a.log" ∧
    get_latest_log ⟨[⟨"b.log", 10, 2097152, "ok", true, false⟩], none⟩ =
      .ok "ok" := by
  refine ⟨?_, ?_, ?_⟩
  · exact (get_latest_log_size_gate ⟨[⟨"a.log", 10, 2097153, "big", true, false⟩], none⟩
      ⟨"a.log", 10, 2097153, "big", true, false⟩ [] rfl rfl).1 (by decide)
  · exact (get_latest_log_size_gate ⟨[⟨"a.log", 10, 2097153, "big", true, false⟩], none⟩
      ⟨"a.log", 10, 2097153, "big", true, false⟩ [] rfl rfl).2.2
  · exact (get_latest_log_size_gate ⟨[⟨"b.log", 10, 2097152, "ok", true, false⟩], none⟩
      ⟨"b.log", 10, 2097152, "ok", true, false⟩ [] rfl rfl).2.1 (by decide)

/-- C2: with zero log files for a `state_id`, `get_all_logs` returns the
empty sequence and both `get_latest_log` and `get_downloadable_log` fail
with `MissingJobLogException`; and when the discovered most recent file
has been removed from disk between discovery and read, `get_latest_log`
fails with `MissingJobLogException` rather than a bare file-not-found
error. -/
theorem missing_log_behaviour (s : StateLogs) :
    (logCandidates s = [] →
      get_all_logs s = [] ∧
      get_latest_log s = .error .missing ∧
      get_downloadable_log s = .error .missing) ∧
    (∀ f rest, get_all_logs s = f :: rest → f.onDisk = false →
      get_latest_log s = .error .missing) := by
  constructor
  · intro hempty
    have hnil : get_all_logs s = [] := by
      unfold get_all_logs
      rw [hempty]
      rfl
    refine ⟨hnil, ?_, ?_⟩
    · unfold get_latest_log
      rw [hnil]
    · unfold get_downloadable_log
      rw [hnil]
  · intro f rest hall hgone
    unfold get_latest_log
    rw [hall]
    simp [hgone]

/-- Witness for C2: an empty state (no log files, legacy directory
absent) and a state whose only log vanished before the read. -/
theorem missing_log_behaviour_witness :
    get_all_logs ⟨[], none⟩ = [] ∧
    get_latest_log ⟨[], none⟩ = .error .missing ∧
    get_downloadable_log ⟨[], none⟩ = .error .missing ∧
    get_latest_log ⟨[⟨"a.log", 1, 5, "x", false, false⟩], none⟩ =
      .error .missing := by
  refine ⟨?_, ?_, ?_, ?_⟩
  · exact ((missing_log_behaviour ⟨[], none⟩).1 rfl).1
  · exact ((missing_log_behaviour ⟨[], none⟩).1 rfl).2.1
  · exact ((missing_log_behaviour ⟨[], none⟩).1 rfl).2.2
  · exact (missing_log_behaviour ⟨[⟨"a.log", 1, 5, "x", false, false⟩], none⟩).2
      ⟨"a.log", 1, 5, "x", false, false⟩ [] rfl rfl

/-- A list sorted by descending-or-equal creation time whose creation
times are pairwise distinct is sorted by strictly descending creation
time. -/
theorem sorted_gt_of_ge_of_ne {l : List FileMeta}
    (h1 : List.Sorted ctimeGe l)
    (h2 : List.Pairwise (fun a b => a.ctimeNs ≠ b.ctimeNs) l) :
    List.Sorted ctimeGt l :=
  (h1.and h2).imp (fun hab => Nat.lt_of_le_of_ne hab.1 (fun h => hab.2 h.symm))

/-- C3: `get_all_logs` returns exactly the `*.log` files found under the
primary logs directory and, only when it exists, the legacy directory,
sorted in descending order of OS creation timestamp; consequently, when
the log files were created at strictly increasing times t1 < … < tN,
`get_all_logs` returns them in order tN, …, t1 and `get_latest_log`
returns the content of the tN file. -/
theorem get_all_logs_ordering (s : StateLogs) :
    (get_all_logs s).Perm ((logsDirsFiles s).filter isLogFile) ∧
    List.Sorted ctimeGe (get_all_logs s) ∧
    (List.Sorted ctimeLt (logCandidates s) →
      get_all_logs s = (logCandidates s).reverse ∧
      (∀ pre f, logCandidates s = pre ++ [f] → f.onDisk = true →
        f.size ≤ MAX_FILE_SIZE → get_latest_log s = .ok f.content)) := by
  have hperm : (get_all_logs s).Perm (logCandidates s) :=
    List.perm_insertionSort ctimeGe _
  have hsorted : List.Sorted ctimeGe (get_all_logs s) :=
    List.sorted_insertionSort ctimeGe _
  refine ⟨hperm, hsorted, fun hasc => ?_⟩
  have hne : List.Pairwise (fun a b : FileMeta => a.ctimeNs ≠ b.ctimeNs)
      (logCandidates s) :=
    hasc.imp (fun h => Nat.ne_of_lt h)
  have hne2 : List.Pairwise (fun a b : FileMeta => a.ctimeNs ≠ b.ctimeNs)
      (get_all_logs s) :=
    (hperm.pairwise_iff (fun h => h.symm)).mpr hne
  have hgt : List.Sorted ctimeGt (get_all_logs s) :=
    sorted_gt_of_ge_of_ne hsorted hne2
  have hgtrev : List.Sorted ctimeGt (logCandidates s).reverse :=
    List.pairwise_reverse.mpr (hasc.imp (fun h => h))
  have heq : get_all_logs s = (logCandidates s).reverse :=
    List.eq_of_perm_of_sorted (hperm.trans (List.reverse_perm _).symm) hgt hgtrev
  refine ⟨heq, fun pre f hsplit hdisk hsize => ?_⟩
  have hcons : get_all_logs s = f :: pre.reverse := by
    rw [heq, hsplit, List.reverse_append]
    simp
  unfold get_latest_log
  rw [hcons]
  simp [hdisk, Nat.not_lt.mpr hsize]

/-- Witness for C3: three logs created at times 1, 2, 3, two in the
primary directory and one in an existing legacy directory, come back
newest first, and the newest one's content is what `get_latest_log`
returns. -/
theorem get_all_logs_ordering_witness :
    get_all_logs ⟨[⟨"logs/a.log", 1, 3, "one", true, false⟩,
                   ⟨"logs/b.log", 2, 3, "two", true, false⟩],
                  some [⟨"run/c.log", 3, 3, "three", true, false⟩]⟩ =
      [⟨"run/c.log", 3, 3, "three", true, false⟩,
       ⟨"logs/b.log", 2, 3, "two", true, false⟩,
       ⟨"logs/a.log", 1, 3, "one", true, false⟩] ∧
    get_latest_log ⟨[⟨"logs/a.log", 1, 3, "one", true, false⟩,
                    ⟨"logs/b.log", 2, 3, "two", true, false⟩],
                   some [⟨"run/c.log", 3, 3, "three", true, false⟩]⟩ =
      .ok "three" := by
  have h := (get_all_logs_ordering
    ⟨[⟨"logs/a.log", 1, 3, "one", true, false⟩,
      ⟨"logs/b.log", 2, 3, "two", true, false⟩],
     some [⟨"run/c.log", 3, 3, "three", true, false⟩]⟩).2.2 (by decide)
  refine ⟨h.1.trans (by decide), ?_⟩
  exact h.2 [⟨"logs/a.log", 1, 3, "one", true, false⟩,
             ⟨"logs/b.log", 2, 3, "two", true, false⟩]
    ⟨"run/c.log", 3, 3, "three", true, false⟩ (by decide) rfl (by decide)

theorem logsDirsFiles_removeName (s : StateLogs) (n : String) :
    logsDirsFiles (removeName s n) =
      (logsDirsFiles s).filter (fun f => !(decide (f.name = n))) := by
  cases s with
  | mk p lg => cases lg <;> simp [logsDirsFiles, removeName, List.filter_append]

theorem logsDirsFiles_removeNames (s : StateLogs) (ns : List String) :
    logsDirsFiles (removeNames s ns) =
      (logsDirsFiles s).filter (fun f => !(decide (f.name ∈ ns))) := by
  cases s with
  | mk p lg => cases lg <;> simp [logsDirsFiles, removeNames, List.filter_append]

theorem removeNames_nil (s : StateLogs) : removeNames s [] = s := by
  cases s with
  | mk p lg => cases lg <;> simp [removeNames]

theorem notMem_cons_eq (x n : String) (ns : List String) :
    (!(decide (x ∈ ns)) && !(decide (x = n))) = !(decide (x ∈ n :: ns)) := by
  simp [List.mem_cons, Bool.not_or, Bool.and_comm]

theorem removeNames_cons (s : StateLogs) (n : String) (ns : List String) :
    removeNames (removeName s n) ns = removeNames s (n :: ns) := by
  cases s with
  | mk p lg =>
    cases lg <;>
      simp [removeNames, removeName, List.filter_filter, notMem_cons_eq]

theorem mem_logsDirsFiles_removeName {g : FileMeta} {s : StateLogs}
    {n : String} :
    g ∈ logsDirsFiles (removeName s n) ↔ g ∈ logsDirsFiles s ∧ g.name ≠ n := by
  rw [logsDirsFiles_removeName]
  simp [List.mem_filter]

/-- Unlinking every file of a list succeeds and removes exactly the
listed names, provided the files are all present, none fails, and names
are unambiguous. -/
theorem deleteFold_ok (L : List FileMeta) (s : StateLogs)
    (hmem : ∀ f ∈ L, f ∈ logsDirsFiles s)
    (hfail : ∀ f ∈ L, f.unlinkFails = false)
    (hnd : (L.map FileMeta.name).Nodup) :
    deleteFold L s = (none, removeNames s (L.map FileMeta.name)) := by
  induction L generalizing s with
  | nil => simp [deleteFold, removeNames_nil]
  | cons f rest ih =>
    have hf : f ∈ logsDirsFiles s := hmem f (by simp)
    have hany : (logsDirsFiles s).any (fun g => decide (g.name = f.name)) = true :=
      List.any_eq_true.mpr ⟨f, hf, by simp⟩
    have hstep : unlink s f = .ok (removeName s f.name) := by
      unfold unlink
      rw [hany]
      simp [hfail f (by simp)]
    rw [List.map_cons] at hnd
    have hndc := List.nodup_cons.mp hnd
    have hrec := ih (removeName s f.name)
      (fun g hg => mem_logsDirsFiles_removeName.mpr
        ⟨hmem g (by simp [hg]), fun hEq => hndc.1 (hEq ▸ List.mem_map_of_mem FileMeta.name hg)⟩)
      (fun g hg => hfail g (by simp [hg]))
      hndc.2
    simp only [deleteFold, hstep]
    rw [hrec, removeNames_cons]
    simp

/-- Unlinking stops at the first file the OS refuses to delete: the
earlier deletions are kept, the later files are untouched. -/
theorem deleteFold_stops (done : List FileMeta) (bad : FileMeta)
    (rest : List FileMeta) (s : StateLogs)
    (hmem : ∀ f ∈ done ++ bad :: rest, f ∈ logsDirsFiles s)
    (hfail : ∀ f ∈ done, f.unlinkFails = false)
    (hbad : bad.unlinkFails = true)
    (hnd : ((done ++ bad :: rest).map FileMeta.name).Nodup) :
    deleteFold (done ++ bad :: rest) s =
      (some .osError, removeNames s (done.map FileMeta.name)) := by
  induction done generalizing s with
  | nil =>
    have hb : bad ∈ logsDirsFiles s := hmem bad (by simp)
    have hany : (logsDirsFiles s).any (fun g => decide (g.name = bad.name)) = true :=
      List.any_eq_true.mpr ⟨bad, hb, by simp⟩
    have hstep : unlink s bad = .error .osError := by
      unfold unlink
      rw [hany]
      simp [hbad]
    simp [deleteFold, hstep, removeNames_nil]
  | cons f done ih =>
    have hf : f ∈ logsDirsFiles s := hmem f (by simp)
    have hany : (logsDirsFiles s).any (fun g => decide (g.name = f.name)) = true :=
      List.any_eq_true.mpr ⟨f, hf, by simp⟩
    have hstep : unlink s f = .ok (removeName s f.name) := by
      unfold unlink
      rw [hany]
      simp [hfail f (by simp)]
    rw [List.cons_append, List.map_cons] at hnd
    have hndc := List.nodup_cons.mp hnd
    have hrec := ih (removeName s f.name)
      (fun g hg => mem_logsDirsFiles_removeName.mpr
        ⟨hmem g (by simp [hg]), fun hEq => hndc.1 (hEq ▸ List.mem_map_of_mem FileMeta.name hg)⟩)
      (fun g hg => hfail g (by simp [hg]))
      hndc.2
    simp only [List.cons_append, deleteFold, hstep, List.append_eq]
    rw [hrec, removeNames_cons]
    simp

theorem mem_get_all_logs {f : FileMeta} {s : StateLogs} :
    f ∈ get_all_logs s ↔ f ∈ logsDirsFiles s ∧ isLogFile f = true := by
  unfold get_all_logs
  rw [(List.perm_insertionSort ctimeGe (logCandidates s)).mem_iff]
  simp [logCandidates, List.mem_filter]

theorem nodupNames_get_all (s : StateLogs) (h : nodupNames s) :
    ((get_all_logs s).map FileMeta.name).Nodup := by
  have hsub : ((logCandidates s).map FileMeta.name).Sublist
      ((logsDirsFiles s).map FileMeta.name) :=
    List.Sublist.map _ (List.filter_sublist _)
  have h1 : ((logCandidates s).map FileMeta.name).Nodup :=
    List.Nodup.sublist hsub h
  unfold get_all_logs
  exact (((List.perm_insertionSort ctimeGe (logCandidates s)).map
    FileMeta.name).nodup_iff).mpr h1

theorem name_mem_get_all_iff (s : StateLogs) (h : nodupNames s)
    {f : FileMeta} (hf : f ∈ logsDirsFiles s) :
    f.name ∈ (get_all_logs s).map FileMeta.name ↔ isLogFile f = true := by
  constructor
  · intro hmem
    obtain ⟨g, hg, hgname⟩ := List.mem_map.mp hmem
    have hg2 := mem_get_all_logs.mp hg
    have hgf : g = f := List.inj_on_of_nodup_map h hg2.1 hf hgname
    exact hgf ▸ hg2.2
  · intro hlog
    exact List.mem_map_of_mem _ (mem_get_all_logs.mpr ⟨hf, hlog⟩)

theorem removeNames_get_all (s : StateLogs) (h : nodupNames s) :
    removeNames s ((get_all_logs s).map FileMeta.name) =
      ⟨s.primary.filter (fun f => !(isLogFile f)),
       s.legacy.map (fun l => l.filter (fun f => !(isLogFile f)))⟩ := by
  have hpred : ∀ f ∈ logsDirsFiles s,
      (!(decide (f.name ∈ (get_all_logs s).map FileMeta.name))) =
        !(isLogFile f) := by
    intro f hf
    have hiff := name_mem_get_all_iff s h hf
    simp [hiff]
  cases s with
  | mk p lg =>
    cases lg with
    | none =>
      simp only [removeNames, StateLogs.mk.injEq, Option.map_none']
      refine ⟨List.filter_congr (fun f hf => hpred f ?_), trivial⟩
      simp [logsDirsFiles, hf]
    | some l =>
      simp only [removeNames, StateLogs.mk.injEq, Option.map_some']
      refine ⟨List.filter_congr (fun f hf => hpred f ?_),
        congrArg some (List.filter_congr (fun f hf => hpred f ?_))⟩
      · simp [logsDirsFiles, hf]
      · simp [logsDirsFiles, hf]

theorem get_all_logs_eq_nil {s : StateLogs} (h : logCandidates s = []) :
    get_all_logs s = [] := by
  unfold get_all_logs
  rw [h]
  rfl

theorem logCandidates_after (s : StateLogs) (h : nodupNames s) :
    logCandidates (removeNames s ((get_all_logs s).map FileMeta.name)) = [] := by
  unfold logCandidates
  rw [logsDirsFiles_removeNames, List.filter_filter]
  apply List.filter_eq_nil_iff.mpr
  intro f hf hcontra
  simp only [Bool.and_eq_true, Bool.not_eq_true'] at hcontra
  rw [decide_eq_false_iff_not] at hcontra
  exact hcontra.2 ((name_mem_get_all_iff s h hf).mpr hcontra.1)

/-- C9: `delete_all_logs` deletes every file `get_all_logs` returns, in
both the primary and the legacy directory, leaving every other file in
place, so a subsequent `get_all_logs` returns the empty list; it raises
no error when zero log files are found; and an OS error during one
deletion propagates while the files already deleted stay deleted (no
rollback). -/
theorem delete_all_logs_spec (s : StateLogs) (hnd : nodupNames s) :
    (logCandidates s = [] → delete_all_logs s = (none, s)) ∧
    ((∀ f ∈ get_all_logs s, f.unlinkFails = false) →
      delete_all_logs s =
        (none, ⟨s.primary.filter (fun f => !(isLogFile f)),
                s.legacy.map (fun l => l.filter (fun f => !(isLogFile f)))⟩) ∧
      get_all_logs (delete_all_logs s).2 = []) ∧
    (∀ done bad rest, get_all_logs s = done ++ bad :: rest →
      (∀ f ∈ done, f.unlinkFails = false) → bad.unlinkFails = true →
      delete_all_logs s =
        (some .osError, removeNames s (done.map FileMeta.name))) := by
  refine ⟨fun hempty => ?_, fun hok => ?_, fun done bad rest hsplit hdone hbad => ?_⟩
  · have hnil : get_all_logs s = [] := by
      unfold get_all_logs
      rw [hempty]
      rfl
    unfold delete_all_logs
    rw [hnil]
    rfl
  · have heq := deleteFold_ok (get_all_logs s) s
      (fun f hf => (mem_get_all_logs.mp hf).1) hok (nodupNames_get_all s hnd)
    have h2 : (delete_all_logs s).2 =
        removeNames s ((get_all_logs s).map FileMeta.name) := by
      unfold delete_all_logs
      rw [heq]
    refine ⟨?_, ?_⟩
    · unfold delete_all_logs
      rw [heq, removeNames_get_all s hnd]
    · rw [h2]
      exact get_all_logs_eq_nil (logCandidates_after s hnd)
  · have hndL := nodupNames_get_all s hnd
    rw [hsplit] at hndL
    unfold delete_all_logs
    rw [hsplit]
    exact deleteFold_stops done bad rest s
      (fun f hf => (mem_get_all_logs.mp (by rw [hsplit]; exact hf)).1)
      hdone hbad hndL

/-- Witness for C9: a state with logs in both directories plus one
non-log file is fully cleaned except for the non-log file; an empty
state reports no error; and a state whose second-newest log cannot be
unlinked keeps exactly the not-yet-deleted files. -/
theorem delete_all_logs_spec_witness :
    delete_all_logs ⟨[⟨"p/a.log", 2, 1, "a", true, false⟩,
                      ⟨"p/keep.txt", 9, 1, "k", true, false⟩],
                     some [⟨"l/b.log", 1, 1, "b", true, false⟩]⟩ =
      (none, ⟨[⟨"p/keep.txt", 9, 1, "k", true, false⟩], some []⟩) ∧
    get_all_logs (delete_all_logs ⟨[⟨"p/a.log", 2, 1, "a", true, false⟩,
                                    ⟨"p/keep.txt", 9, 1, "k", true, false⟩],
                                   some [⟨"l/b.log", 1, 1, "b", true, false⟩]⟩).2 = [] ∧
    delete_all_logs ⟨[], none⟩ = (none, ⟨[], none⟩) ∧
    delete_all_logs ⟨[⟨"p/c.log", 5, 1, "c", true, false⟩,
                      ⟨"p/d.log", 3, 1, "d", true, true⟩], none⟩ =
      (some .osError, ⟨[⟨"p/d.log", 3, 1, "d", true, true⟩], none⟩) := by
  have hA := (delete_all_logs_spec
    ⟨[⟨"p/a.log", 2, 1, "a", true, false⟩,
      ⟨"p/keep.txt", 9, 1, "k", true, false⟩],
     some [⟨"l/b.log", 1, 1, "b", true, false⟩]⟩ (by decide)).2.1 (by decide)
  refine ⟨hA.1.trans (by decide), hA.2, ?_, ?_⟩
  · exact (delete_all_logs_spec ⟨[], none⟩ (by decide)).1 rfl
  · exact ((delete_all_logs_spec
      ⟨[⟨"p/c.log", 5, 1, "c", true, false⟩,
        ⟨"p/d.log", 3, 1, "d", true, true⟩], none⟩ (by decide)).2.2
      [⟨"p/c.log", 5, 1, "c", true, false⟩]
      ⟨"p/d.log", 3, 1, "d", true, true⟩ [] (by decide) (by decide) rfl).trans
      (by decide)

/-- C4: when opening the generated log path fails with an OS-level
error, `create_log` does not propagate that failure: the caller sees
only what its own block raised, the condition is logged, a discard sink
is yielded so that every write through it is accepted (and reaches no
real file), and the handles acquired in the scope are all released on
every exit path. -/
theorem create_log_devnull_fallback (p : String) (body : LogBody) :
    (create_log false p body).2 = body.raises ∧
    Ev.loggedOpenError ∈ (create_log false p body).1 ∧
    (create_log false p body).1.filter isNullWrite =
      body.writes.map Ev.wroteNull ∧
    (create_log false p body).1.filter isFileWrite = [] ∧
    (∀ q, Ev.openedFile q ∉ (create_log false p body).1) ∧
    (create_log false p body).1.count Ev.openedNull =
      (create_log false p body).1.count Ev.closedNull := by
  have htr : (create_log false p body).1 =
      Ev.loggedOpenError :: Ev.openedNull ::
        (body.writes.map Ev.wroteNull ++ [Ev.closedNull]) := rfl
  refine ⟨rfl, ?_, ?_, ?_, ?_, ?_⟩
  · rw [htr]
    exact List.mem_cons_self _ _
  · rw [htr]
    have hcomp : (isNullWrite ∘ Ev.wroteNull) = fun _ => true :=
      funext (fun w => rfl)
    simp [List.filter_append, List.filter_map, isNullWrite, hcomp]
  · rw [htr]
    have hcomp : (isFileWrite ∘ Ev.wroteNull) = fun _ => false :=
      funext (fun w => rfl)
    simp [List.filter_append, List.filter_map, isFileWrite, hcomp]
  · intro q
    rw [htr]
    simp [List.mem_map]
  · have h1 : (body.writes.map Ev.wroteNull).count Ev.openedNull = 0 := by
      rw [List.count_eq_zero]
      simp [List.mem_map]
    have h2 : (body.writes.map Ev.wroteNull).count Ev.closedNull = 0 := by
      rw [List.count_eq_zero]
      simp [List.mem_map]
    rw [htr]
    simp [List.count_cons, List.count_append, h1, h2]

/-- Witness for C4: a body writing twice and then raising a non-OS
exception sees its own exception (not the open failure), its writes are
accepted by the discard sink, and a body raising nothing completes
without error. -/
theorem create_log_devnull_fallback_witness :
    (create_log false "p.log" ⟨["a", "b"], some Exc.otherExc⟩).2 =
      some Exc.otherExc ∧
    (create_log false "p.log" ⟨["a", "b"], some Exc.otherExc⟩).1.filter
      isNullWrite = [Ev.wroteNull "a", Ev.wroteNull "b"] ∧
    (create_log false "p.log" ⟨["a", "b"], none⟩).2 = none := by
  refine ⟨(create_log_devnull_fallback "p.log" ⟨["a", "b"],
      some Exc.otherExc⟩).1, ?_,
    (create_log_devnull_fallback "p.log" ⟨["a", "b"], none⟩).1⟩
  exact ((create_log_devnull_fallback "p.log" ⟨["a", "b"],
    some Exc.otherExc⟩).2.2.1).trans (by decide)

theorem decodeStr_encodeStr (x : String) (rest : List Nat) :
    decodeStr (encodeStr x ++ rest) = some (x, rest) := by
  have hred : decodeStr (encodeStr x ++ rest) =
      if x.data.length ≤ (x.data.map Char.toNat ++ rest).length then
        some (⟨((x.data.map Char.toNat ++ rest).take x.data.length).map
          Char.ofNat⟩, (x.data.map Char.toNat ++ rest).drop x.data.length)
      else none := rfl
  have hlen : x.data.length ≤ (x.data.map Char.toNat ++ rest).length := by
    simp [Nat.le_add_right]
  have htake : (x.data.map Char.toNat ++ rest).take x.data.length =
      x.data.map Char.toNat :=
    List.take_left' (by simp)
  have hdrop : (x.data.map Char.toNat ++ rest).drop x.data.length = rest :=
    List.drop_left' (by simp)
  rw [hred, if_pos hlen, htake, hdrop, List.map_map]
  have hid : Char.ofNat ∘ Char.toNat = id := funext Char.ofNat_toNat
  rw [hid, List.map_id]

theorem decodePair_encodePair (kv : String × String) (rest : List Nat) :
    decodePair (encodePair kv ++ rest) = some (kv, rest) := by
  simp [decodePair, encodePair, List.append_assoc, decodeStr_encodeStr]

theorem decodePairs_encodePairs (c : List (String × String))
    (rest : List Nat) :
    decodePairs c.length (encodePairs c ++ rest) = some (c, rest) := by
  induction c generalizing rest with
  | nil => simp [encodePairs, decodePairs]
  | cons kv rest2 ih =>
    rw [List.length_cons]
    simp [encodePairs, decodePairs, List.append_assoc,
      decodePair_encodePair, ih]

theorem jsonParse_jsonDump (c : List (String × String)) :
    jsonParse (jsonDump c) = some c := by
  have h := decodePairs_encodePairs c []
  rw [List.append_nil] at h
  simp [jsonDump, jsonParse, h]

theorem ofCanonical_canonical (sp : StandalonePlugin) :
    StandalonePlugin.ofCanonical sp.canonical = some sp := rfl

theorem defaultLoader_jsonDump (sp : StandalonePlugin) :
    defaultLoader (jsonDump sp.canonical) = .ok sp := by
  simp [defaultLoader, jsonParse_jsonDump, ofCanonical_canonical]

theorem LockFS.write_self (fs : LockFS) (p : String) (bs : List Nat) :
    fs.write p bs p = some bs := by
  unfold LockFS.write
  simp

/-- C6: for any plugin, `PluginLock.save()` followed by
`PluginLock.load()` with the default loader succeeds and yields the
standalone plugin whose canonical serialization is exactly the
canonical representation `save()` wrote to the lockfile. -/
theorem plugin_lock_roundtrip (lk : PluginLock) (fs : LockFS) :
    (lk.save fs) lk.path = some (jsonDump lk.standalone.canonical) ∧
    lk.load false defaultLoader (lk.save fs) =
      .ok (lk.standalone, lk.save fs) := by
  have hfile : (lk.save fs) lk.path =
      some (jsonDump lk.standalone.canonical) :=
    LockFS.write_self fs lk.path _
  refine ⟨hfile, ?_⟩
  simp [PluginLock.load, loadOnce, hfile, defaultLoader_jsonDump]

/-- Witness for C6: a concrete plugin saved on an empty filesystem is
loaded back intact. -/
theorem plugin_lock_roundtrip_witness :
    (PluginLock.save ⟨"extractors", "tap-x", "main", [("pip_url", "tap-x")]⟩
        (fun _ => none))
      (PluginLock.path ⟨"extractors", "tap-x", "main", [("pip_url", "tap-x")]⟩) =
      some (jsonDump (StandalonePlugin.canonical
        ⟨"extractors", "tap-x", "main", [("pip_url", "tap-x")]⟩)) ∧
    PluginLock.load ⟨"extractors", "tap-x", "main", [("pip_url", "tap-x")]⟩
        false defaultLoader
        (PluginLock.save ⟨"extractors", "tap-x", "main", [("pip_url", "tap-x")]⟩
          (fun _ => none)) =
      .ok (⟨"extractors", "tap-x", "main", [("pip_url", "tap-x")]⟩,
        PluginLock.save ⟨"extractors", "tap-x", "main", [("pip_url", "tap-x")]⟩
          (fun _ => none)) := by
  exact plugin_lock_roundtrip
    ⟨"extractors", "tap-x", "main", [("pip_url", "tap-x")]⟩ (fun _ => none)

/-- C5: `PluginLockService.save` with `exists_ok = false` fails with
`LockfileAlreadyExistsError` carrying the conflicting path and the
plugin reference whenever a file already exists at the lock path, and
then performs no write (the filesystem is returned unchanged); with
`exists_ok = true`, or when no file exists, it writes the serialized
lockfile, overwriting any existing content. -/
theorem plugin_lock_service_save_spec (plugin : ProjectPlugin)
    (exists_ok : Bool) (fs : LockFS) :
    ((fs (PluginLock.ofPlugin plugin).path).isSome = true →
      exists_ok = false →
      PluginLockService.save plugin exists_ok fs =
        (some (.alreadyExists (PluginLock.ofPlugin plugin).path plugin),
         fs)) ∧
    (exists_ok = true ∨ fs (PluginLock.ofPlugin plugin).path = none →
      PluginLockService.save plugin exists_ok fs =
        (none, (PluginLock.ofPlugin plugin).save fs) ∧
      (PluginLockService.save plugin exists_ok fs).2
          (PluginLock.ofPlugin plugin).path =
        some (jsonDump (PluginLock.ofPlugin plugin).standalone.canonical)) := by
  constructor
  · intro hsome hok
    unfold PluginLockService.save
    simp [hsome, hok]
  · intro h
    have hcond : ((fs (PluginLock.ofPlugin plugin).path).isSome
        && !exists_ok) = false := by
      rcases h with h | h
      · simp [h]
      · simp [h]
    have heq : PluginLockService.save plugin exists_ok fs =
        (none, (PluginLock.ofPlugin plugin).save fs) := by
      unfold PluginLockService.save
      simp only [hcond]
      simp
    refine ⟨heq, ?_⟩
    rw [heq]
    exact LockFS.write_self fs _ _

/-- Witness for C5: saving twice on an empty filesystem fails the
second time with the conflicting path and plugin attached, leaving the
file's bytes unchanged, while `exists_ok = true` overwrites. -/
theorem plugin_lock_service_save_spec_witness :
    PluginLockService.save ⟨"extractors", "tap-x", "main", []⟩ false
        (PluginLock.save (PluginLock.ofPlugin
          ⟨"extractors", "tap-x", "main", []⟩) (fun _ => none)) =
      (some (.alreadyExists
          (PluginLock.ofPlugin ⟨"extractors", "tap-x", "main", []⟩).path
          ⟨"extractors", "tap-x", "main", []⟩),
       PluginLock.save (PluginLock.ofPlugin
         ⟨"extractors", "tap-x", "main", []⟩) (fun _ => none)) ∧
    PluginLockService.save ⟨"extractors", "tap-x", "main", []⟩ true
        (PluginLock.save (PluginLock.ofPlugin
          ⟨"extractors", "tap-x", "main", []⟩) (fun _ => none)) =
      (none, (PluginLock.ofPlugin ⟨"extractors", "tap-x", "main", []⟩).save
        (PluginLock.save (PluginLock.ofPlugin
          ⟨"extractors", "tap-x", "main", []⟩) (fun _ => none))) ∧
    PluginLockService.save ⟨"extractors", "tap-x", "main", []⟩ false
        (fun _ => none) =
      (none, (PluginLock.ofPlugin ⟨"extractors", "tap-x", "main", []⟩).save
        (fun _ => none)) := by
  refine ⟨?_, ?_, ?_⟩
  · exact (plugin_lock_service_save_spec ⟨"extractors", "tap-x", "main", []⟩
      false (PluginLock.save (PluginLock.ofPlugin
        ⟨"extractors", "tap-x", "main", []⟩) (fun _ => none))).1
      (by rfl) rfl
  · exact ((plugin_lock_service_save_spec ⟨"extractors", "tap-x", "main", []⟩
      true (PluginLock.save (PluginLock.ofPlugin
        ⟨"extractors", "tap-x", "main", []⟩) (fun _ => none))).2
      (Or.inl rfl)).1
  · exact ((plugin_lock_service_save_spec ⟨"extractors", "tap-x", "main", []⟩
      false (fun _ => none)).2 (Or.inr rfl)).1

/-- C7: `PluginLock.load` raises `FileNotFoundError` when the lockfile
is absent and `create` is false; when `create` is true and the lockfile
is absent it saves first and then retries the load, and the result
(plugin and filesystem) equals what loading after a plain `save()`
would have produced. -/
theorem plugin_lock_load_create (lk : PluginLock) (fs : LockFS)
    (habsent : fs lk.path = none) :
    lk.load false defaultLoader fs = .error .fileNotFound ∧
    lk.load true defaultLoader fs = .ok (lk.standalone, lk.save fs) ∧
    lk.load true defaultLoader fs =
      lk.load false defaultLoader (lk.save fs) := by
  have honce : loadOnce lk defaultLoader fs = .error .fileNotFound := by
    simp [loadOnce, habsent]
  have hsaved : loadOnce lk defaultLoader (lk.save fs) =
      .ok lk.standalone := by
    simp [loadOnce, PluginLock.save, LockFS.write_self, defaultLoader_jsonDump]
  refine ⟨?_, ?_, ?_⟩
  · simp [PluginLock.load, honce]
  · simp [PluginLock.load, honce, hsaved]
  · simp [PluginLock.load, honce, hsaved]

/-- Witness for C7: loading a concrete absent lockfile fails without
`create` and succeeds with `create = true`, equal to save-then-load. -/
theorem plugin_lock_load_create_witness :
    PluginLock.load ⟨"extractors", "tap-x", "main", []⟩ false defaultLoader
        (fun _ => none) = .error .fileNotFound ∧
    PluginLock.load ⟨"extractors", "tap-x", "main", []⟩ true defaultLoader
        (fun _ => none) =
      .ok (PluginLock.standalone ⟨"extractors", "tap-x", "main", []⟩,
        PluginLock.save ⟨"extractors", "tap-x", "main", []⟩ (fun _ => none)) ∧
    PluginLock.load ⟨"extractors", "tap-x", "main", []⟩ true defaultLoader
        (fun _ => none) =
      PluginLock.load ⟨"extractors", "tap-x", "main", []⟩ false defaultLoader
        (PluginLock.save ⟨"extractors", "tap-x", "main", []⟩ (fun _ => none)) :=
  plugin_lock_load_create ⟨"extractors", "tap-x", "main", []⟩
    (fun _ => none) rfl

/-- C10: `PluginLock.load` distinguishes lockfile absence only by
catching `FileNotFoundError` around the whole load attempt, so for a
loader that itself raises `FileNotFoundError` on the existing file's
content, `load(create=True)` saves and retries the loader even though
the lockfile already exists on disk (the retry running on the freshly
saved bytes), and `load(create=False)` propagates the loader's
`FileNotFoundError` as if the lockfile were missing. -/
theorem plugin_lock_load_loader_fnf (lk : PluginLock) (fs : LockFS)
    (loader : List Nat → Except LoadErr StandalonePlugin)
    (bs : List Nat) (hexists : fs lk.path = some bs)
    (hloader : loader bs = .error .fileNotFound) :
    lk.load false loader fs = .error .fileNotFound ∧
    lk.load true loader fs =
      (match loader (jsonDump lk.standalone.canonical) with
       | .ok sp => .ok (sp, lk.save fs)
       | .error e => .error e) := by
  have honce : loadOnce lk loader fs = .error .fileNotFound := by
    simp [loadOnce, hexists, hloader]
  have hsaved : loadOnce lk loader (lk.save fs) =
      loader (jsonDump lk.standalone.canonical) := by
    simp [loadOnce, PluginLock.save, LockFS.write_self]
  constructor
  · simp [PluginLock.load, honce]
  · unfold PluginLock.load
    rw [honce, hsaved]
    rfl

/-- Witness for C10: with the always-`FileNotFoundError` loader and an
existing lockfile, `create=False` surfaces the loader's error and
`create=True` retries the loader on the saved bytes (here failing
again with the loader's own error). -/
theorem plugin_lock_load_loader_fnf_witness :
    PluginLock.load ⟨"extractors", "tap-x", "main", []⟩ false
        (fun _ => .error .fileNotFound)
        (fun _ => some [7]) = .error .fileNotFound ∧
    PluginLock.load ⟨"extractors", "tap-x", "main", []⟩ true
        (fun _ => .error .fileNotFound)
        (fun _ => some [7]) = .error .fileNotFound := by
  have h := plugin_lock_load_loader_fnf ⟨"extractors", "tap-x", "main", []⟩
    (fun _ => some [7]) (fun _ => .error .fileNotFound) [7] rfl rfl
  exact ⟨h.1, h.2⟩

theorem addHash_bound (x y : Hash8) : boundH (addHash x y) := by
  have hB : 0 < 4294967296 := by norm_num
  exact ⟨Nat.mod_lt _ hB, Nat.mod_lt _ hB, Nat.mod_lt _ hB, Nat.mod_lt _ hB,
    Nat.mod_lt _ hB, Nat.mod_lt _ hB, Nat.mod_lt _ hB, Nat.mod_lt _ hB⟩

theorem compress_bound (H : Hash8) (block : List Nat) :
    boundH (compress H block) :=
  addHash_bound H _

theorem sha256Loop_bound (k : Nat) :
    ∀ (H : Hash8) (bytes : List Nat), boundH H →
      boundH (sha256Loop k H bytes) := by
  induction k with
  | zero => exact fun H bytes h => h
  | succ n ih =>
    exact fun H bytes _ => ih (compress H (bytes.take 64)) (bytes.drop 64)
      (compress_bound H _)

theorem initH_bound : boundH initH := by
  refine ⟨?_, ?_, ?_, ?_, ?_, ?_, ?_, ?_⟩ <;> norm_num [initH]

theorem sha256digest_bound (msg : List Nat) :
    boundH (sha256digest msg) :=
  sha256Loop_bound _ _ _ initH_bound

theorem mul_add_bound {x y M : Nat} (hx : x < M) (hy : y < 4294967296) :
    x * 4294967296 + y < M * 4294967296 := by
  calc x * 4294967296 + y < x * 4294967296 + 4294967296 :=
        Nat.add_lt_add_left hy _
    _ = (x + 1) * 4294967296 := by ring
    _ ≤ M * 4294967296 := Nat.mul_le_mul_right _ (Nat.succ_le_of_lt hx)

theorem sha256nat_lt (msg : List Nat) :
    sha256nat msg < 4294967296 ^ 8 := by
  have hb := sha256digest_bound msg
  obtain ⟨b0, b1, b2, b3, b4, b5, b6, b7⟩ := hb
  have h1 := mul_add_bound b0 b1
  have h2 := mul_add_bound h1 b2
  have h3 := mul_add_bound h2 b3
  have h4 := mul_add_bound h3 b4
  have h5 := mul_add_bound h4 b5
  have h6 := mul_add_bound h5 b6
  have h7 := mul_add_bound h6 b7
  have hpow : 4294967296 * 4294967296 * 4294967296 * 4294967296 * 4294967296
      * 4294967296 * 4294967296 * 4294967296 = 4294967296 ^ 8 := by
    norm_num [pow_succ]
  unfold sha256nat
  rw [← hpow]
  exact h7

/-- Counterexample to C8 as stated: the checksum cannot change at every
change of the lockfile's bytes — the digest space is finite while the
byte-string space is infinite, so two filesystem states with different
lockfile bytes share the same `sha256_checksum`. -/
theorem sha256_checksum_collision_exists :
    ∃ (lk : PluginLock) (fs1 fs2 : LockFS),
      fs1 lk.path ≠ fs2 lk.path ∧
      lk.sha256_checksum fs1 = lk.sha256_checksum fs2 := by
  obtain ⟨x, y, hxy, hfeq⟩ := Finite.exists_ne_map_eq_of_infinite
    (fun bs : List Nat =>
      (⟨sha256nat bs, sha256nat_lt bs⟩ : Fin (4294967296 ^ 8)))
  refine ⟨⟨"t", "n", "v", []⟩, fun _ => some x, fun _ => some y, ?_, ?_⟩
  · exact fun h => hxy (Option.some.inj h)
  · have hnat : sha256nat x = sha256nat y := congrArg Fin.val hfeq
    simp [PluginLock.sha256_checksum, sha256hex, hnat]

/-- C8 (amended): `sha256_checksum` equals the SHA-256 hex digest of the
lockfile's current on-disk bytes, recomputed on every access with no
caching: two accesses with the file's bytes unchanged return the same
hex string, the checksum changes only if the lockfile's bytes change,
and after an overwrite it reflects the newly written bytes.  (The
converse — that every change of bytes changes the checksum — fails by
`sha256_checksum_collision_exists`.) -/
theorem sha256_checksum_spec (lk : PluginLock) (fs fs2 : LockFS)
    (bs : List Nat) :
    (fs lk.path = some bs → lk.sha256_checksum fs = some (sha256hex bs)) ∧
    (fs lk.path = fs2 lk.path →
      lk.sha256_checksum fs = lk.sha256_checksum fs2) ∧
    lk.sha256_checksum (lk.save fs) =
      some (sha256hex (jsonDump lk.standalone.canonical)) := by
  refine ⟨fun h => ?_, fun h => ?_, ?_⟩
  · simp [PluginLock.sha256_checksum, h]
  · simp [PluginLock.sha256_checksum, h]
  · simp [PluginLock.sha256_checksum, PluginLock.save, LockFS.write_self]

/-- Witness for C8 (amended): a concrete lockfile's checksum is the
digest of its bytes, and is stable across two reads of the unchanged
file. -/
theorem sha256_checksum_spec_witness :
    PluginLock.sha256_checksum ⟨"extractors", "tap-x", "main", []⟩
        (fun _ => some [1, 2, 3]) = some (sha256hex [1, 2, 3]) ∧
    PluginLock.sha256_checksum ⟨"extractors", "tap-x", "main", []⟩
        (fun _ => some [1, 2, 3]) =
      PluginLock.sha256_checksum ⟨"extractors", "tap-x", "main", []⟩
        (fun _ => if True then some [1, 2, 3] else none) := by
  constructor
  · exact (sha256_checksum_spec ⟨"extractors", "tap-x", "main", []⟩
      (fun _ => some [1, 2, 3]) (fun _ => some [1, 2, 3]) [1, 2, 3]).1 rfl
  · exact (sha256_checksum_spec ⟨"extractors", "tap-x", "main", []⟩
      (fun _ => some [1, 2, 3])
      (fun _ => if True then some [1, 2, 3] else none) [1, 2, 3]).2.1
      (by simp)

set_option maxRecDepth 400000 in
/-- Known-answer check of the SHA-256 embedding against FIPS 180-4 test
vectors (the digests of the empty message and of `"abc"`). -/
theorem sha256hex_known_vectors :
    sha256hex [] =
      "e3b0c44298fc1c149afbf4c8996fb92427ae41e4649b934ca495991b7852b855" ∧
    sha256hex [97, 98, 99] =
      "ba7816bf8f01cfea414140de5dae2223b00361a396177a9cb410ff61f20015ad" := by
  constructor
  · decide
  · decide

end Meltano
